import Mathlib

/-!
Verification development for the KTX container reader and the ETC2/EAC
block decompression codec implemented in
`src/ballistica/base/graphics/texture/ktx.cc`.

Byte buffers are modelled as total functions from flat byte addresses to
byte values; a store into the buffer is modelled by `upd`.  The 64-bit
compressed block is modelled, as in the source, by its two 32-bit
half-words held as natural numbers; all bitfield macros mask their
results, so the embeddings below agree with the C code on every input
whose words are below `2 ^ 32`.
-/

namespace KTX

/-- Pixel/alpha buffers: flat byte address to byte value. -/
abbrev Buf := Nat → Nat

/-- Model of a single byte store at address `a`. -/
def upd (f : Buf) (a v : Nat) : Buf := fun b => if b = a then v else f b

@[simp] theorem upd_apply (f : Buf) (a v b : Nat) :
    upd f a v b = if b = a then v else f b := rfl

/-- GETBITS macro: `size` bits of `source` whose most significant bit is
`startpos` (bit positions 0..31).  The C shift amount `startpos - size + 1`
is written `startpos + 1 - size`, which agrees with it at every call site
(all have `size ≤ startpos + 1`). -/
def GETBITS (source size startpos : Nat) : Nat :=
  (source >>> (startpos + 1 - size)) &&& ((1 <<< size) - 1)

/-- GETBITSHIGH macro: like `GETBITS` but for the high half-word, with
absolute bit positions 32..63 remapped by subtracting 32. -/
def GETBITSHIGH (source size startpos : Nat) : Nat :=
  (source >>> (startpos - 32 + 1 - size)) &&& ((1 <<< size) - 1)

/-- MASK macro for the low half-word. -/
def MASK (size startpos : Nat) : Nat :=
  ((2 <<< (size - 1)) - 1) <<< (startpos + 1 - size)

/-- PUTBITS macro: clear the field and OR in `data`, masked to `size`
bits.  The 32-bit complement of the mask is modelled by XOR against
`0xFFFFFFFF`. -/
def PUTBITS (dest data size startpos : Nat) : Nat :=
  (dest &&& (4294967295 ^^^ MASK size startpos)) |||
    ((data <<< (startpos + 1 - size)) &&& MASK size startpos)

/-- MASKHIGH macro for the high half-word. -/
def MASKHIGH (size startpos : Nat) : Nat :=
  ((1 <<< size) - 1) <<< (startpos - 32 + 1 - size)

/-- PUTBITSHIGH macro. -/
def PUTBITSHIGH (dest data size startpos : Nat) : Nat :=
  (dest &&& (4294967295 ^^^ MASKHIGH size startpos)) |||
    ((data <<< (startpos - 32 + 1 - size)) &&& MASKHIGH size startpos)

/-- CLAMP macro on integers. -/
def CLAMP (ll x ul : Int) : Int := if x < ll then ll else if x > ul then ul else x

/-- Clamp to a byte and convert to the stored (unsigned) byte value. -/
def clampU8 (x : Int) : Nat := (CLAMP 0 x 255).toNat

/-- Conversion of an integer to a `uint8` value (truncating assignment). -/
def u8 (z : Int) : Nat := (z % 256).toNat

/-- Global table `table59T` (the 3-bit distance table of T-mode). -/
def table59T (i : Nat) : Int := ([3, 6, 11, 16, 23, 32, 41, 64] : List Int).getD i 0

/-- Global table `table58H` (the 3-bit distance table of H-mode). -/
def table58H (i : Nat) : Int := ([3, 6, 11, 16, 23, 32, 41, 64] : List Int).getD i 0

/-- Global table `compressParams`: the 16 modifier tables of
individual/differential mode. -/
def compressParams (i j : Nat) : Int :=
  (([[-8, -2, 2, 8], [-8, -2, 2, 8], [-17, -5, 5, 17], [-17, -5, 5, 17],
     [-29, -9, 9, 29], [-29, -9, 9, 29], [-42, -13, 13, 42], [-42, -13, 13, 42],
     [-60, -18, 18, 60], [-60, -18, 18, 60], [-80, -24, 24, 80], [-80, -24, 24, 80],
     [-106, -33, 33, 106], [-106, -33, 33, 106], [-183, -47, 47, 183],
     [-183, -47, 47, 183]] : List (List Int)).getD i []).getD j 0

/-- Global table `unscramble`. -/
def unscramble (i : Nat) : Nat := ([2, 3, 1, 0] : List Nat).getD i 0

/-- Global table `alphaBase`: the 16 by 4 seed table of the alpha codec. -/
def alphaBase (i j : Nat) : Int :=
  (([[-15, -9, -6, -3], [-13, -10, -7, -3], [-13, -8, -5, -2], [-13, -6, -4, -2],
     [-12, -8, -6, -3], [-11, -9, -7, -3], [-11, -8, -7, -4], [-11, -8, -5, -3],
     [-10, -8, -6, -2], [-10, -8, -5, -2], [-10, -8, -4, -2], [-10, -7, -5, -2],
     [-10, -7, -4, -3], [-10, -3, -2, -1], [-9, -8, -6, -4],
     [-9, -7, -5, -3]] : List (List Int)).getD i []).getD j 0

/-- Sign extension of a 3-bit field, modelling the C idiom
`(signed char)(d << 5) >> 5` (two's-complement wrap followed by an
arithmetic shift). -/
def signExt3 (d : Nat) : Int := if d < 4 then (d : Int) else (d : Int) - 8

/-- The 5-bit base colour channel `c` (0 = red, 1 = green, 2 = blue) of a
differential-layout block: `enc_color1` in the source. -/
def base5 (p1 c : Nat) : Nat := GETBITSHIGH p1 5 (63 - 8 * c)

/-- The sign-extended 3-bit delta of channel `c`: `diff` in the source. -/
def delta3 (p1 c : Nat) : Int := signExt3 (GETBITSHIGH p1 3 (58 - 8 * c))

/-- The reconstructed second base colour channel `c` (`red`, `green`,
`blue` in `decompressBlockETC2c`); the signed-char arithmetic cannot
overflow since the value lies in `[-4, 34]`. -/
def recon2 (p1 c : Nat) : Int := (base5 p1 c : Int) + delta3 p1 c

/-- Bit replication used by `decompressColor`: expands a `bits`-wide
channel to 8 bits. -/
def dcChan (bits v : Nat) : Nat := (v <<< (8 - bits)) ||| (v >>> (bits - (8 - bits)))

/-- Expansion of a 4-bit channel to 8 bits: `avg_color |= avg_color << 4`. -/
def exp4 (v : Nat) : Nat := v ||| (v <<< 4)

/-- Expansion of a 5-bit channel to 8 bits: `(v << 3) | (v >> 2)`. -/
def exp5 (v : Nat) : Nat := (v <<< 3) ||| (v >>> 2)

/-- Converter `unstuff57bits`: remaps the on-disk planar-mode bit layout
into the canonical 57-bit layout. -/
def unstuff57bits (w1 w2 : Nat) : Nat × Nat :=
  let RO := GETBITSHIGH w1 6 62
  let GO1 := GETBITSHIGH w1 1 56
  let GO2 := GETBITSHIGH w1 6 54
  let BO1 := GETBITSHIGH w1 1 48
  let BO2 := GETBITSHIGH w1 2 44
  let BO3 := GETBITSHIGH w1 3 41
  let RH1 := GETBITSHIGH w1 5 38
  let RH2 := GETBITSHIGH w1 1 32
  let GH := GETBITS w2 7 31
  let BH := GETBITS w2 6 24
  let RV := GETBITS w2 6 18
  let GV := GETBITS w2 7 12
  let BV := GETBITS w2 6 5
  let o1 := PUTBITSHIGH 0 RO 6 63
  let o1 := PUTBITSHIGH o1 GO1 1 57
  let o1 := PUTBITSHIGH o1 GO2 6 56
  let o1 := PUTBITSHIGH o1 BO1 1 50
  let o1 := PUTBITSHIGH o1 BO2 2 49
  let o1 := PUTBITSHIGH o1 BO3 3 47
  let o1 := PUTBITSHIGH o1 RH1 5 44
  let o1 := PUTBITSHIGH o1 RH2 1 39
  let o1 := PUTBITSHIGH o1 GH 7 38
  let o2 := PUTBITS 0 BH 6 31
  let o2 := PUTBITS o2 RV 6 25
  let o2 := PUTBITS o2 GV 7 19
  let o2 := PUTBITS o2 BV 6 12
  (o1, o2)

/-- Converter `unstuff58bits`: remaps the on-disk H-mode bit layout into
the canonical 58-bit layout. -/
def unstuff58bits (w1 w2 : Nat) : Nat × Nat :=
  let part0 := GETBITSHIGH w1 7 62
  let part1 := GETBITSHIGH w1 2 52
  let part2 := GETBITSHIGH w1 16 49
  let part3 := GETBITSHIGH w1 1 32
  let o1 := PUTBITSHIGH 0 part0 7 57
  let o1 := PUTBITSHIGH o1 part1 2 50
  let o1 := PUTBITSHIGH o1 part2 16 48
  let o1 := PUTBITSHIGH o1 part3 1 32
  (o1, w2)

/-- Converter `unstuff59bits`: remaps the on-disk T-mode bit layout into
the canonical 59-bit layout. -/
def unstuff59bits (w1 w2 : Nat) : Nat × Nat :=
  let o1 := w1 >>> 1
  let o1 := PUTBITSHIGH o1 w1 1 32
  let R0a := GETBITSHIGH w1 2 60
  let o1 := PUTBITSHIGH o1 R0a 2 58
  let o1 := PUTBITSHIGH o1 0 5 63
  (o1, w2)

/-- Byte stores of `RED_CHANNEL`, `GREEN_CHANNEL`, `BLUE_CHANNEL` for one
texel, in source order. -/
def writeRGB (img : Buf) (width channels x y r g b : Nat) : Buf :=
  upd (upd (upd img (channels * (y * width + x)) r)
        (channels * (y * width + x) + 1) g)
    (channels * (y * width + x) + 2) b

/-- The per-texel 2-bit mask of the T- and H-mode decoders. -/
def blockMask (p2 x y : Nat) : Nat :=
  ((GETBITS p2 1 ((y + x * 4) + 16)) <<< 1) ||| GETBITS p2 1 (y + x * 4)

/-- Paint colours of `calculatePaintColors59T` (the PATTERN_T branch,
which is the only one reachable from the decoders), indexed by the texel
mask. -/
def calcPaintColors59T (d : Nat) (c0 c1 : Nat × Nat × Nat) (k : Nat) : Nat × Nat × Nat :=
  match k with
  | 0 => c0
  | 1 => (clampU8 ((c1.1 : Int) + table59T d), clampU8 ((c1.2.1 : Int) + table59T d),
          clampU8 ((c1.2.2 : Int) + table59T d))
  | 2 => c1
  | _ => (clampU8 ((c1.1 : Int) - table59T d), clampU8 ((c1.2.1 : Int) - table59T d),
          clampU8 ((c1.2.2 : Int) - table59T d))

/-- Paint colours of `calculatePaintColors58H` (the PATTERN_H branch),
indexed by the texel mask. -/
def calcPaintColors58H (d : Nat) (c0 c1 : Nat × Nat × Nat) (k : Nat) : Nat × Nat × Nat :=
  match k with
  | 0 => (clampU8 ((c0.1 : Int) + table58H d), clampU8 ((c0.2.1 : Int) + table58H d),
          clampU8 ((c0.2.2 : Int) + table58H d))
  | 1 => (clampU8 ((c0.1 : Int) - table58H d), clampU8 ((c0.2.1 : Int) - table58H d),
          clampU8 ((c0.2.2 : Int) - table58H d))
  | 2 => (clampU8 ((c1.1 : Int) + table58H d), clampU8 ((c1.2.1 : Int) + table58H d),
          clampU8 ((c1.2.2 : Int) + table58H d))
  | _ => (clampU8 ((c1.1 : Int) - table58H d), clampU8 ((c1.2.1 : Int) - table58H d),
          clampU8 ((c1.2.2 : Int) - table58H d))

/-- Traversal order of the T/H/Planar texel loops: `x` outer, `y` inner. -/
def texelList : List (Nat × Nat) :=
  (List.range 4).flatMap fun x => (List.range 4).map fun y => (x, y)

/-- Decoder `decompressBlockTHUMB59Tc`. -/
def decompressBlockTHUMB59Tc (p1 p2 : Nat) (img : Buf)
    (width height startx starty channels : Nat) : Buf :=
  let c0 := (dcChan 4 (GETBITSHIGH p1 4 58), dcChan 4 (GETBITSHIGH p1 4 54),
             dcChan 4 (GETBITSHIGH p1 4 50))
  let c1 := (dcChan 4 (GETBITSHIGH p1 4 46), dcChan 4 (GETBITSHIGH p1 4 42),
             dcChan 4 (GETBITSHIGH p1 4 38))
  let distance := GETBITSHIGH p1 3 34
  texelList.foldl (fun img xy =>
    let pc := calcPaintColors59T distance c0 c1 (blockMask p2 xy.1 xy.2)
    writeRGB img width channels (startx + xy.1) (starty + xy.2)
      (clampU8 (pc.1 : Int)) (clampU8 (pc.2.1 : Int)) (clampU8 (pc.2.2 : Int))) img

/-- Distance reconstruction of `decompressBlockTHUMB58Hc`: two stored
bits shifted left, low bit set from the comparison of the packed base
colours. -/
def distance58H (p1 : Nat) : Nat :=
  let d := (GETBITSHIGH p1 2 33) <<< 1
  if GETBITSHIGH p1 12 57 ≥ GETBITSHIGH p1 12 45 then d ||| 1 else d

/-- Decoder `decompressBlockTHUMB58Hc`. -/
def decompressBlockTHUMB58Hc (p1 p2 : Nat) (img : Buf)
    (width height startx starty channels : Nat) : Buf :=
  let c0 := (dcChan 4 (GETBITSHIGH p1 4 57), dcChan 4 (GETBITSHIGH p1 4 53),
             dcChan 4 (GETBITSHIGH p1 4 49))
  let c1 := (dcChan 4 (GETBITSHIGH p1 4 45), dcChan 4 (GETBITSHIGH p1 4 41),
             dcChan 4 (GETBITSHIGH p1 4 37))
  let distance := distance58H p1
  texelList.foldl (fun img xy =>
    let pc := calcPaintColors58H distance c0 c1 (blockMask p2 xy.1 xy.2)
    writeRGB img width channels (startx + xy.1) (starty + xy.2)
      (clampU8 (pc.1 : Int)) (clampU8 (pc.2.1 : Int)) (clampU8 (pc.2.2 : Int))) img

/-- Arithmetic right shift by two, i.e. floor division by 4, used for the
planar interpolation. -/
def asr2 (z : Int) : Int := Int.fdiv z 4

/-- Decoder `decompressBlockPlanar57c`. -/
def decompressBlockPlanar57c (w1 w2 : Nat) (img : Buf)
    (width height startx starty channels : Nat) : Buf :=
  let e676 := fun (v : Nat × Nat × Nat) =>
    ((v.1 <<< 2) ||| (v.1 >>> 4), (v.2.1 <<< 1) ||| (v.2.1 >>> 6),
     (v.2.2 <<< 2) ||| (v.2.2 >>> 4))
  let cO := e676 (GETBITSHIGH w1 6 63, GETBITSHIGH w1 7 57, GETBITSHIGH w1 6 50)
  let cH := e676 (GETBITSHIGH w1 6 44, GETBITSHIGH w1 7 38, GETBITS w2 6 31)
  let cV := e676 (GETBITS w2 6 25, GETBITS w2 7 19, GETBITS w2 6 12)
  let pix := fun (xx yy o h v : Nat) =>
    clampU8 (asr2 ((xx : Int) * ((h : Int) - o) + (yy : Int) * ((v : Int) - o) + 4 * o + 2))
  texelList.foldl (fun img xy =>
    writeRGB img width channels (startx + xy.1) (starty + xy.2)
      (pix xy.1 xy.2 cO.1 cH.1 cV.1) (pix xy.1 xy.2 cO.2.1 cH.2.1 cV.2.1)
      (pix xy.1 xy.2 cO.2.2 cH.2.2 cV.2.2)) img

/-- Per-texel 2-bit index assembled from the MSB and LSB index planes at
bit position `shift`. -/
def pixIndexOf (MSB LSB shift : Nat) : Nat :=
  (((MSB >>> shift) &&& 1) <<< 1) ||| ((LSB >>> shift) &&& 1)

/-- Texel traversal of the unflipped individual/differential loops: two
columns starting at `x0`, each full height, with the bit-plane shift
counter incremented once per texel. -/
def colPairs (x0 y0 : Nat) : List (Nat × Nat) :=
  (List.range 2).flatMap fun dx => (List.range 4).map fun dy => (x0 + dx, y0 + dy)

/-- Loop body of `decompressBlockDiffFlipC`: reconstruct and unscramble
the texel index, then store the three clamped channel values. -/
def diffFlipStep (width channels : Nat) (avg : Nat × Nat × Nat) (table MSB LSB : Nat)
    (st : Buf × Nat) (p : Nat × Nat) : Buf × Nat :=
  let idx := unscramble (pixIndexOf MSB LSB st.2)
  (writeRGB st.1 width channels p.1 p.2
      (clampU8 ((avg.1 : Int) + compressParams table idx))
      (clampU8 ((avg.2.1 : Int) + compressParams table idx))
      (clampU8 ((avg.2.2 : Int) + compressParams table idx)), st.2 + 1)

/-- The flipped half-block loop of `decompressBlockDiffFlipC`: four
columns of two texels, with the shift counter skipping two positions
after each column. -/
def diffFlipHalfFlip (width channels : Nat) (avg : Nat × Nat × Nat)
    (table MSB LSB x0 y0 : Nat) (st : Buf × Nat) : Buf × Nat :=
  (List.range 4).foldl (fun st dx =>
    let st2 := (List.range 2).foldl (fun st dy =>
      diffFlipStep width channels avg table MSB LSB st (x0 + dx, y0 + dy)) st
    (st2.1, st2.2 + 2)) st

/-- Decoder `decompressBlockDiffFlipC` (individual and differential
modes). -/
def decompressBlockDiffFlipC (p1 p2 : Nat) (img : Buf)
    (width height startx starty channels : Nat) : Buf :=
  let diffbit := GETBITSHIGH p1 1 33
  let flipbit := GETBITSHIGH p1 1 32
  let MSB := GETBITS p2 16 31
  let LSB := GETBITS p2 16 15
  if diffbit = 0 then
    let avg1 := (exp4 (GETBITSHIGH p1 4 63), exp4 (GETBITSHIGH p1 4 55),
                 exp4 (GETBITSHIGH p1 4 47))
    let t1 := (GETBITSHIGH p1 3 39) <<< 1
    let st1 :=
      if flipbit = 0 then
        (colPairs startx starty).foldl (diffFlipStep width channels avg1 t1 MSB LSB) (img, 0)
      else diffFlipHalfFlip width channels avg1 t1 MSB LSB startx starty (img, 0)
    let avg2 := (exp4 (GETBITSHIGH p1 4 59), exp4 (GETBITSHIGH p1 4 51),
                 exp4 (GETBITSHIGH p1 4 43))
    let t2 := (GETBITSHIGH p1 3 36) <<< 1
    let st2 :=
      if flipbit = 0 then
        (colPairs (startx + 2) starty).foldl (diffFlipStep width channels avg2 t2 MSB LSB)
          (st1.1, 8)
      else diffFlipHalfFlip width channels avg2 t2 MSB LSB startx (starty + 2) (st1.1, 2)
    st2.1
  else
    let avg1 := (exp5 (base5 p1 0), exp5 (base5 p1 1), exp5 (base5 p1 2))
    let t1 := (GETBITSHIGH p1 3 39) <<< 1
    let st1 :=
      if flipbit = 0 then
        (colPairs startx starty).foldl (diffFlipStep width channels avg1 t1 MSB LSB) (img, 0)
      else diffFlipHalfFlip width channels avg1 t1 MSB LSB startx starty (img, 0)
    let avg2 := (exp5 (u8 (recon2 p1 0)), exp5 (u8 (recon2 p1 1)), exp5 (u8 (recon2 p1 2)))
    let t2 := (GETBITSHIGH p1 3 36) <<< 1
    let st2 :=
      if flipbit = 0 then
        (colPairs (startx + 2) starty).foldl (diffFlipStep width channels avg2 t2 MSB LSB)
          (st1.1, 8)
      else diffFlipHalfFlip width channels avg2 t2 MSB LSB startx (starty + 2) (st1.1, 2)
    st2.1

/-- The four decoding routes of `decompressBlockETC2c`. -/
inductive ETC2Route
  | tMode
  | hMode
  | planarMode
  | diffMode
deriving DecidableEq

/-- Route chosen by `decompressBlockETC2c`: differential unless the
diffbit is set and the reconstructed second base colour has a channel
outside `[0, 31]`, tested red, then green, then blue. -/
def etc2Route (p1 : Nat) : ETC2Route :=
  if GETBITSHIGH p1 1 33 ≠ 0 then
    if recon2 p1 0 < 0 ∨ recon2 p1 0 > 31 then .tMode
    else if recon2 p1 1 < 0 ∨ recon2 p1 1 > 31 then .hMode
    else if recon2 p1 2 < 0 ∨ recon2 p1 2 > 31 then .planarMode
    else .diffMode
  else .diffMode

/-- Dispatcher `decompressBlockETC2c`. -/
def decompressBlockETC2c (p1 p2 : Nat) (img : Buf)
    (width height startx starty channels : Nat) : Buf :=
  if GETBITSHIGH p1 1 33 ≠ 0 then
    if recon2 p1 0 < 0 ∨ recon2 p1 0 > 31 then
      decompressBlockTHUMB59Tc (unstuff59bits p1 p2).1 (unstuff59bits p1 p2).2 img
        width height startx starty channels
    else if recon2 p1 1 < 0 ∨ recon2 p1 1 > 31 then
      decompressBlockTHUMB58Hc (unstuff58bits p1 p2).1 (unstuff58bits p1 p2).2 img
        width height startx starty channels
    else if recon2 p1 2 < 0 ∨ recon2 p1 2 > 31 then
      decompressBlockPlanar57c (unstuff57bits p1 p2).1 (unstuff57bits p1 p2).2 img
        width height startx starty channels
    else decompressBlockDiffFlipC p1 p2 img width height startx starty channels
  else decompressBlockDiffFlipC p1 p2 img width height startx starty channels

/-- Alpha store of the punch-through decoder: with three RGB channels the
alpha plane is a separate one-byte-per-texel buffer, otherwise alpha is
interleaved at offset 3 of the four-channel RGB buffer. -/
def writeA (bufs : Buf × Buf) (channelsRGB width x y v : Nat) : Buf × Buf :=
  if channelsRGB = 3 then (bufs.1, upd bufs.2 ((y * width + x) * 1) v)
  else (upd bufs.1 (3 + (y * width + x) * 4) v, bufs.2)

/-- Per-texel body of `decompressBlockDifferentialWithAlphaC`: modifier
forced to zero for indices 1 and 2 when the diffbit is clear, and index 1
additionally punches the texel to transparent black. -/
def paTexelWrite (bufs : Buf × Buf) (width channelsRGB x y : Nat)
    (avg : Nat × Nat × Nat) (table diffbit idx : Nat) : Buf × Buf :=
  let mod : Int := if diffbit = 0 ∧ (idx = 1 ∨ idx = 2) then 0 else compressParams table idx
  let img1 := writeRGB bufs.1 width channelsRGB x y
    (clampU8 ((avg.1 : Int) + mod)) (clampU8 ((avg.2.1 : Int) + mod))
    (clampU8 ((avg.2.2 : Int) + mod))
  if diffbit = 0 ∧ idx = 1 then
    let b2 := writeA (img1, bufs.2) channelsRGB width x y 0
    (writeRGB b2.1 width channelsRGB x y 0 0 0, b2.2)
  else writeA (img1, bufs.2) channelsRGB width x y 255

/-- Loop body of `decompressBlockDifferentialWithAlphaC`. -/
def paStep (width channelsRGB : Nat) (avg : Nat × Nat × Nat) (table diffbit MSB LSB : Nat)
    (st : (Buf × Buf) × Nat) (p : Nat × Nat) : (Buf × Buf) × Nat :=
  let idx := unscramble (pixIndexOf MSB LSB st.2)
  (paTexelWrite st.1 width channelsRGB p.1 p.2 avg table diffbit idx, st.2 + 1)

/-- The flipped half-block loop of the punch-through decoder. -/
def paHalfFlip (width channelsRGB : Nat) (avg : Nat × Nat × Nat)
    (table diffbit MSB LSB x0 y0 : Nat) (st : (Buf × Buf) × Nat) : (Buf × Buf) × Nat :=
  (List.range 4).foldl (fun st dx =>
    let st2 := (List.range 2).foldl (fun st dy =>
      paStep width channelsRGB avg table diffbit MSB LSB st (x0 + dx, y0 + dy)) st
    (st2.1, st2.2 + 2)) st

/-- Decoder `decompressBlockDifferentialWithAlphaC` (punch-through
differential mode). -/
def decompressBlockDifferentialWithAlphaC (p1 p2 : Nat) (img alphaB : Buf)
    (width height startx starty channelsRGB : Nat) : Buf × Buf :=
  let diffbit := GETBITSHIGH p1 1 33
  let flipbit := GETBITSHIGH p1 1 32
  let avg1 := (exp5 (base5 p1 0), exp5 (base5 p1 1), exp5 (base5 p1 2))
  let t1 := (GETBITSHIGH p1 3 39) <<< 1
  let MSB := GETBITS p2 16 31
  let LSB := GETBITS p2 16 15
  let st1 :=
    if flipbit = 0 then
      (colPairs startx starty).foldl (paStep width channelsRGB avg1 t1 diffbit MSB LSB)
        ((img, alphaB), 0)
    else paHalfFlip width channelsRGB avg1 t1 diffbit MSB LSB startx starty ((img, alphaB), 0)
  let avg2 := (exp5 (u8 (recon2 p1 0)), exp5 (u8 (recon2 p1 1)), exp5 (u8 (recon2 p1 2)))
  let t2 := (GETBITSHIGH p1 3 36) <<< 1
  let st2 :=
    if flipbit = 0 then
      (colPairs (startx + 2) starty).foldl (paStep width channelsRGB avg2 t2 diffbit MSB LSB)
        (st1.1, 8)
    else paHalfFlip width channelsRGB avg2 t2 diffbit MSB LSB startx (starty + 2) (st1.1, 2)
  st2.1

/-- Helper `getbit`: bit `frompos` of `input` moved to bit `topos`. -/
def getbit (input frompos topos : Nat) : Nat :=
  if frompos > topos then ((1 <<< frompos) &&& input) >>> (frompos - topos)
  else ((1 <<< frompos) &&& input) <<< (topos - frompos)

/-- Helper `clamp`: clamp an integer to `[0, 255]`. -/
def clamp (val : Int) : Int := if val < 0 then 0 else if val > 255 then 255 else val

/-- First phase of `setupAlphaTable`: rows 16..31 are copied (columns
0..3) or negated-minus-one (columns 4..7) from `alphaBase`; every other
entry keeps its previous contents. -/
def alphaPhase1 (t : Nat → Nat → Int) : Nat → Nat → Int := fun i j =>
  if 16 ≤ i ∧ i < 32 ∧ j < 8 then
    let buf := alphaBase (i - 16) (3 - j % 4)
    if j < 4 then buf else -buf - 1
  else t i j

/-- One iteration of the second phase of `setupAlphaTable`: row `i`
becomes row `16 + i % 16` of the current table times `i / 16`. -/
def alphaWriteRow (t : Nat → Nat → Int) (i : Nat) : Nat → Nat → Int := fun a j =>
  if a = i ∧ j < 8 then t (16 + i % 16) j * ((i / 16 : Nat) : Int) else t a j

/-- Second phase of `setupAlphaTable`: rows 0..255 rewritten in order. -/
def alphaPhase2 (t : Nat → Nat → Int) : Nat → Nat → Int :=
  (List.range 256).foldl alphaWriteRow t

/-- The process-wide alpha-codec globals: the `alphaTableInitialized`
flag and the `alphaTable` contents. -/
structure AlphaGlobals where
  initd : Bool
  table : Nat → Nat → Int

/-- Builder `setupAlphaTable`: a no-op when already initialized,
otherwise runs the two construction phases. -/
def setupAlphaTable (s : AlphaGlobals) : AlphaGlobals :=
  if s.initd then s else ⟨true, alphaPhase2 (alphaPhase1 s.table)⟩

/-- The globals at process start: flag clear, table zero (static
storage). -/
def alphaGlobals0 : AlphaGlobals := ⟨false, fun _ _ => 0⟩

/-- The alpha table actually consulted by the decoders, built once. -/
def alphaTableB : Nat → Nat → Int := (setupAlphaTable alphaGlobals0).table

/-- One step of the 3-bit index extraction of `decompressBlockAlphaC`:
state is the partial index together with the running bit and byte
cursors. -/
def idxBitStep (data : Nat → Nat) (st : Nat × Nat × Nat) (bitpos : Nat) : Nat × Nat × Nat :=
  let index := st.1 ||| getbit (data st.2.2) (7 - st.2.1) (2 - bitpos)
  let bit := st.2.1 + 1
  if bit > 7 then (index, 0, st.2.2 + 1) else (index, bit, st.2.2)

/-- Per-texel body of `decompressBlockAlphaC`: extract the three index
bits, then store the clamped alpha value. -/
def alphaTexelStep (data : Nat → Nat) (width ix iy channels alpha table : Nat)
    (st : Buf × Nat × Nat) (p : Nat × Nat) : Buf × Nat × Nat :=
  let r := ([0, 1, 2] : List Nat).foldl (idxBitStep data) (0, st.2.1, st.2.2)
  (upd st.1 ((ix + p.1 + (iy + p.2) * width) * channels)
      (clamp ((alpha : Int) + alphaTableB table r.1)).toNat, r.2.1, r.2.2)

/-- Decoder `decompressBlockAlphaC` (8-bit EAC alpha blocks). -/
def decompressBlockAlphaC (data : Nat → Nat) (img : Buf)
    (width height ix iy channels : Nat) : Buf :=
  (texelList.foldl (alphaTexelStep data width ix iy channels (data 0) (data 1))
    (img, 0, 2)).1

/-- Check applied to every declared mip-level byte size by `LoadKTX`:
`size == ((size + 3) & ~(uint32_t)3)`. -/
def mipSizeCheck (size : Nat) : Bool :=
  size == ((size + 3) % 4294967296) &&& 4294967292

/-- Data recorded for a materialized mip level: its byte size, pixel
dimensions, and the classified texture format. -/
structure MipSlot where
  size : Nat
  width : Nat
  height : Nat
  fmt : Nat
deriving DecidableEq

/-- Per-level dimension update of `LoadKTX`: `x = (x + 1) >> 1`. -/
def halve (x : Nat) : Nat := (x + 1) >>> 1

/-- The mip-level loop of `LoadKTX` over the stream of declared level
sizes: every level's size prefix and payload are consumed (the second
component counts the consumed bytes), but only levels at or above the
base level are materialized; a size failing `mipSizeCheck` aborts the
load. -/
def loadMipLevels (baseLevel fmt : Nat) : Nat → Nat → Nat → List Nat →
    Option (List (Option MipSlot) × Nat)
  | _, _, _, [] => some ([], 0)
  | level, x, y, s :: rest =>
    if mipSizeCheck s then
      match loadMipLevels baseLevel fmt (level + 1) (halve x) (halve y) rest with
      | none => none
      | some (slots, consumed) =>
        if baseLevel ≤ level then some (some ⟨s, x, y, fmt⟩ :: slots, 4 + s + consumed)
        else some (none :: slots, 4 + s + consumed)
    else none

/-- Inner byte-copy loop of the cropping step of `KTXUnpackETC`: the
first `n` bytes of one pixel, destination base address `d`, source base
address `s`. -/
def cropZ (old img : Buf) (d s : Nat) : Nat → Buf
  | 0 => img
  | n + 1 => upd (cropZ old img d s n) (d + n) (old (s + n))

/-- Pixel loop of the cropping step: the first `n` pixels of one row,
`pB` bytes per pixel. -/
def cropX (old : Buf) (pB rowD rowS : Nat) (img : Buf) : Nat → Buf
  | 0 => img
  | n + 1 => cropZ old (cropX old pB rowD rowS img n) (rowD + n * pB) (rowS + n * pB) pB

/-- Row loop of the cropping step: the first `n` rows, `aW` pixels per
output row, `aRB`/`dRB` the output/padded row strides in bytes. -/
def cropY (old : Buf) (aRB dRB pB aW : Nat) (img : Buf) : Nat → Buf
  | 0 => img
  | n + 1 => cropX old pB (n * aRB) (n * dRB) (cropY old aRB dRB pB aW img n) aW

/-- The crop of `KTXUnpackETC`: copy the active sub-rectangle of the
padded buffer `old` into a tightly-sized buffer. -/
def cropImage (old img0 : Buf) (aW aH width pB : Nat) : Buf :=
  cropY old (aW * pB) (width * pB) pB aW img0 aH

/-- Size of the buffer allocated for the cropped image:
`dstPixelBytes * activeWidth * activeHeight`. -/
def cropAllocSize (pB aW aH : Nat) : Nat := pB * aW * aH

/-! Helper lemmas. -/

theorem GETBITS_lt (source size startpos : Nat) : GETBITS source size startpos < 2 ^ size := by
  have h2 : 0 < 2 ^ size := Nat.pos_pow_of_pos _ (by norm_num)
  have h1 : (1 <<< size) - 1 < 2 ^ size := by
    have h3 : (1 : Nat) <<< size = 2 ^ size := by simp [Nat.shiftLeft_eq]
    omega
  exact Nat.lt_of_le_of_lt Nat.and_le_right h1

theorem GETBITSHIGH_lt (source size startpos : Nat) :
    GETBITSHIGH source size startpos < 2 ^ size := by
  have h2 : 0 < 2 ^ size := Nat.pos_pow_of_pos _ (by norm_num)
  have h1 : (1 <<< size) - 1 < 2 ^ size := by
    have h3 : (1 : Nat) <<< size = 2 ^ size := by simp [Nat.shiftLeft_eq]
    omega
  exact Nat.lt_of_le_of_lt Nat.and_le_right h1

theorem and_mask32_4 (x : Nat) (hx : x < 4294967296) :
    x &&& 4294967292 = 4 * (x / 4) := by
  have h4 : (4294967292 : Nat) = (2 ^ 30 - 1) <<< 2 := by
    rw [Nat.shiftLeft_eq]; norm_num
  have h42 : 4 * (x / 4) = (x >>> 2) <<< 2 := by
    rw [Nat.shiftLeft_eq, Nat.shiftRight_eq_div_pow]
    norm_num
    exact Nat.mul_comm _ _
  apply Nat.eq_of_testBit_eq
  intro i
  rw [Nat.testBit_and, h4, h42, Nat.testBit_shiftLeft, Nat.testBit_shiftLeft,
    Nat.testBit_two_pow_sub_one, Nat.testBit_shiftRight]
  by_cases h2 : 2 ≤ i
  · by_cases h32 : i < 32
    · have he : 2 + (i - 2) = i := by omega
      have hd : i - 2 < 30 := by omega
      simp [h2, he, hd]
    · have hpow : (4294967296 : Nat) ≤ 2 ^ i := by
        calc (4294967296 : Nat) = 2 ^ 32 := by norm_num
          _ ≤ 2 ^ i := Nat.pow_le_pow_right (by norm_num) (by omega)
      have hfalse : x.testBit i = false :=
        Nat.testBit_lt_two_pow (Nat.lt_of_lt_of_le hx hpow)
      have he : 2 + (i - 2) = i := by omega
      have hd : ¬(i - 2 < 30) := by omega
      simp [h2, he, hd, hfalse]
  · simp [h2]

/-! Claim theorems. -/

/-- C3: for every 64-bit H-mode block word, the 3-bit distance index used
by `decompressBlockTHUMB58Hc` is the two stored distance bits shifted
left by one with the least significant bit set exactly when the packed
base colour `col0` (bits 57..46) is at least the packed base colour
`col1` (bits 45..34); the low bit is never read from the bitstream. -/
theorem claim3_distance58H (p1 : Nat) (hp : p1 < 4294967296) :
    distance58H p1 =
      2 * GETBITSHIGH p1 2 33 +
        (if GETBITSHIGH p1 12 57 ≥ GETBITSHIGH p1 12 45 then 1 else 0) ∧
    distance58H p1 % 2 =
      (if GETBITSHIGH p1 12 57 ≥ GETBITSHIGH p1 12 45 then 1 else 0) ∧
    distance58H p1 / 2 = GETBITSHIGH p1 2 33 := by
  have hlt := GETBITSHIGH_lt p1 2 33
  simp only [distance58H]
  generalize hgen : GETBITSHIGH p1 2 33 = b at hlt ⊢
  have hb : b ≤ 3 := by norm_num at hlt; omega
  split_ifs with hc
  · refine ⟨?_, ?_, ?_⟩ <;> (interval_cases b <;> decide)
  · refine ⟨?_, ?_, ?_⟩ <;> (interval_cases b <;> decide)

/-- Witness for C3 at a concrete block word. -/
theorem claim3_witness :
    (2864434397 : Nat) < 4294967296 ∧
    (distance58H 2864434397 =
      2 * GETBITSHIGH 2864434397 2 33 +
        (if GETBITSHIGH 2864434397 12 57 ≥ GETBITSHIGH 2864434397 12 45 then 1 else 0) ∧
    distance58H 2864434397 % 2 =
      (if GETBITSHIGH 2864434397 12 57 ≥ GETBITSHIGH 2864434397 12 45 then 1 else 0) ∧
    distance58H 2864434397 / 2 = GETBITSHIGH 2864434397 2 33) :=
  ⟨by norm_num, claim3_distance58H 2864434397 (by norm_num)⟩

/-- C6: a declared mip-level byte size passes the structural check of
`LoadKTX` exactly when it is a multiple of 4 (no 4-byte-aligned size is
rejected and no unaligned size is repaired), and a level with an
unaligned declared size makes the whole mip walk fail. -/
theorem claim6_mipSizeCheck (size k fmt level x y : Nat) (rest : List Nat)
    (h : size < 4294967296) :
    (mipSizeCheck size = true ↔ size % 4 = 0) ∧
    (size % 4 ≠ 0 → loadMipLevels k fmt level x y (size :: rest) = none) := by
  have hlt : (size + 3) % 4294967296 < 4294967296 := Nat.mod_lt _ (by norm_num)
  have hiff : mipSizeCheck size = true ↔ size % 4 = 0 := by
    simp only [mipSizeCheck, and_mask32_4 _ hlt, beq_iff_eq]
    omega
  refine ⟨hiff, fun hne => ?_⟩
  have hfalse : mipSizeCheck size = false := by
    cases hchk : mipSizeCheck size with
    | false => rfl
    | true => exact absurd (hiff.mp hchk) hne
  simp [loadMipLevels, hfalse]

/-- Witness for C6 at size 8. -/
theorem claim6_witness :
    (8 : Nat) < 4294967296 ∧
    ((mipSizeCheck 8 = true ↔ 8 % 4 = 0) ∧
      (8 % 4 ≠ 0 → loadMipLevels 0 0 0 0 0 [8] = none)) :=
  ⟨by norm_num, claim6_mipSizeCheck 8 0 0 0 0 0 [] (by norm_num)⟩

/-- C1: for every block with the diffbit set whose reconstructed second
base colour has a channel outside `[0, 31]`, `decompressBlockETC2c`
routes to exactly one of the T, H, or Planar decoders (applied to the
correspondingly unstuffed words), chosen by the first out-of-range
channel in the order red, green, blue, and never to the differential
decoder. -/
theorem claim1_dispatch (p1 p2 : Nat) (img : Buf)
    (width height startx starty channels : Nat)
    (hp : p1 < 4294967296)
    (hdiff : GETBITSHIGH p1 1 33 = 1)
    (hout : recon2 p1 0 < 0 ∨ recon2 p1 0 > 31 ∨ recon2 p1 1 < 0 ∨ recon2 p1 1 > 31 ∨
            recon2 p1 2 < 0 ∨ recon2 p1 2 > 31) :
    etc2Route p1 ≠ ETC2Route.diffMode ∧
    ((etc2Route p1 = ETC2Route.tMode) ↔ (recon2 p1 0 < 0 ∨ recon2 p1 0 > 31)) ∧
    ((etc2Route p1 = ETC2Route.hMode) ↔
      (¬(recon2 p1 0 < 0 ∨ recon2 p1 0 > 31) ∧ (recon2 p1 1 < 0 ∨ recon2 p1 1 > 31))) ∧
    ((etc2Route p1 = ETC2Route.planarMode) ↔
      (¬(recon2 p1 0 < 0 ∨ recon2 p1 0 > 31) ∧ ¬(recon2 p1 1 < 0 ∨ recon2 p1 1 > 31) ∧
        (recon2 p1 2 < 0 ∨ recon2 p1 2 > 31))) ∧
    decompressBlockETC2c p1 p2 img width height startx starty channels =
      (match etc2Route p1 with
       | ETC2Route.tMode => decompressBlockTHUMB59Tc (unstuff59bits p1 p2).1
           (unstuff59bits p1 p2).2 img width height startx starty channels
       | ETC2Route.hMode => decompressBlockTHUMB58Hc (unstuff58bits p1 p2).1
           (unstuff58bits p1 p2).2 img width height startx starty channels
       | ETC2Route.planarMode => decompressBlockPlanar57c (unstuff57bits p1 p2).1
           (unstuff57bits p1 p2).2 img width height startx starty channels
       | ETC2Route.diffMode =>
           decompressBlockDiffFlipC p1 p2 img width height startx starty channels) := by
  have hne : GETBITSHIGH p1 1 33 ≠ 0 := by omega
  by_cases h0 : recon2 p1 0 < 0 ∨ recon2 p1 0 > 31 <;>
    by_cases h1 : recon2 p1 1 < 0 ∨ recon2 p1 1 > 31 <;>
      by_cases h2 : recon2 p1 2 < 0 ∨ recon2 p1 2 > 31 <;>
        simp only [etc2Route, decompressBlockETC2c, hne, h0, h1, h2, if_true, if_false,
          ite_true, ite_false, ne_eq, not_false_eq_true] <;>
        simp [h0, h1, h2] <;>
        tauto

/-- Witness for C1: a concrete block word with the diffbit set and the
red channel reconstructing to 34. -/
theorem claim1_witness :
    (4211081218 : Nat) < 4294967296 ∧
    GETBITSHIGH 4211081218 1 33 = 1 ∧
    (recon2 4211081218 0 < 0 ∨ recon2 4211081218 0 > 31 ∨ recon2 4211081218 1 < 0 ∨
      recon2 4211081218 1 > 31 ∨ recon2 4211081218 2 < 0 ∨ recon2 4211081218 2 > 31) ∧
    (etc2Route 4211081218 ≠ ETC2Route.diffMode ∧
    ((etc2Route 4211081218 = ETC2Route.tMode) ↔
      (recon2 4211081218 0 < 0 ∨ recon2 4211081218 0 > 31)) ∧
    ((etc2Route 4211081218 = ETC2Route.hMode) ↔
      (¬(recon2 4211081218 0 < 0 ∨ recon2 4211081218 0 > 31) ∧
        (recon2 4211081218 1 < 0 ∨ recon2 4211081218 1 > 31))) ∧
    ((etc2Route 4211081218 = ETC2Route.planarMode) ↔
      (¬(recon2 4211081218 0 < 0 ∨ recon2 4211081218 0 > 31) ∧
        ¬(recon2 4211081218 1 < 0 ∨ recon2 4211081218 1 > 31) ∧
        (recon2 4211081218 2 < 0 ∨ recon2 4211081218 2 > 31))) ∧
    decompressBlockETC2c 4211081218 0 (fun _ => 0) 4 4 0 0 3 =
      (match etc2Route 4211081218 with
       | ETC2Route.tMode => decompressBlockTHUMB59Tc (unstuff59bits 4211081218 0).1
           (unstuff59bits 4211081218 0).2 (fun _ => 0) 4 4 0 0 3
       | ETC2Route.hMode => decompressBlockTHUMB58Hc (unstuff58bits 4211081218 0).1
           (unstuff58bits 4211081218 0).2 (fun _ => 0) 4 4 0 0 3
       | ETC2Route.planarMode => decompressBlockPlanar57c (unstuff57bits 4211081218 0).1
           (unstuff57bits 4211081218 0).2 (fun _ => 0) 4 4 0 0 3
       | ETC2Route.diffMode =>
           decompressBlockDiffFlipC 4211081218 0 (fun _ => 0) 4 4 0 0 3)) :=
  ⟨by norm_num, by decide, by decide,
    claim1_dispatch 4211081218 0 (fun _ => 0) 4 4 0 0 3 (by norm_num) (by decide) (by decide)⟩

/-! The alpha-table characterization used by C5 and C10. -/

theorem alphaFold_ne (l : List Nat) (t : Nat → Nat → Int) (a j : Nat)
    (h : ∀ b ∈ l, b ≠ a) : (l.foldl alphaWriteRow t) a j = t a j := by
  induction l generalizing t with
  | nil => rfl
  | cons b l ih =>
    simp only [List.foldl_cons]
    rw [ih _ (fun b2 hb2 => h b2 (List.mem_cons_of_mem _ hb2))]
    have hb : b ≠ a := h b (List.mem_cons_self _ _)
    simp only [alphaWriteRow]
    exact if_neg (fun hand => hb hand.1.symm)

theorem alphaFold_inv (l : List Nat) (t : Nat → Nat → Int)
    (h : ∀ a j, 16 ≤ a → a < 32 → j < 8 → t a j = alphaPhase1 (fun _ _ => 0) a j)
    (a j : Nat) (ha : 16 ≤ a) (ha2 : a < 32) (hj : j < 8) :
    (l.foldl alphaWriteRow t) a j = alphaPhase1 (fun _ _ => 0) a j := by
  induction l generalizing t with
  | nil => exact h a j ha ha2 hj
  | cons b l ih =>
    simp only [List.foldl_cons]
    apply ih
    intro a2 j2 h16 h32 hj2
    simp only [alphaWriteRow]
    split_ifs with hc
    · obtain ⟨hab, hj8⟩ := hc
      subst hab
      have h16e : 16 + a2 % 16 = a2 := by omega
      have hdiv : a2 / 16 = 1 := by omega
      simp only [h16e, hdiv, Nat.cast_one, mul_one]
      exact h a2 j2 h16 h32 hj2
    · exact h a2 j2 h16 h32 hj2

theorem alphaWriteRow_self (t : Nat → Nat → Int) (i j : Nat) (hj : j < 8) :
    alphaWriteRow t i i j = t (16 + i % 16) j * ((i / 16 : Nat) : Int) := by
  simp [alphaWriteRow, hj]

theorem alphaTableB_char (i j : Nat) (hi : i < 256) (hj : j < 8) :
    alphaTableB i j = alphaPhase1 (fun _ _ => 0) (16 + i % 16) j * ((i / 16 : Nat) : Int) := by
  have h256 : (256 : Nat) = (i + 1) + (255 - i) := by omega
  show (setupAlphaTable alphaGlobals0).table i j = _
  unfold setupAlphaTable alphaGlobals0
  simp only [Bool.false_eq_true, if_false, ite_false]
  show alphaPhase2 (alphaPhase1 fun _ _ => 0) i j = _
  unfold alphaPhase2
  rw [h256, List.range_add, List.foldl_append, List.range_succ, List.foldl_append]
  rw [alphaFold_ne]
  · simp only [List.foldl_cons, List.foldl_nil]
    rw [alphaWriteRow_self _ _ _ hj]
    congr 1
    exact alphaFold_inv _ _ (fun a2 j2 _ _ _ => rfl) _ _ (by omega) (by omega) hj
  · intro b hb
    simp only [List.mem_map, List.mem_range] at hb
    obtain ⟨x, _, rfl⟩ := hb
    omega

theorem alphaTableB_row_zero (i j : Nat) (hi : i < 16) (hj : j < 8) :
    alphaTableB i j = 0 := by
  rw [alphaTableB_char i j (by omega) hj]
  have hz : i / 16 = 0 := by omega
  simp [hz]

/-- The seed rows as the claim describes them: entry `alphaBase[k][3-j]`
copied for columns below 4, negated-minus-one for the upper columns. -/
def seedRow (k j : Nat) : Int :=
  if j < 4 then alphaBase k (3 - j) else -(alphaBase k (3 - j % 4)) - 1

theorem phase1_eq_seedRow (i j : Nat) (h16 : 16 ≤ i) (h32 : i < 32) (hj : j < 8) :
    alphaPhase1 (fun _ _ => 0) i j = seedRow (i - 16) j := by
  unfold alphaPhase1 seedRow
  rw [if_pos ⟨h16, h32, hj⟩]
  by_cases h4 : j < 4
  · have hm : j % 4 = j := by omega
    simp [h4, hm]
  · simp [h4]

/-- C5: after `setupAlphaTable`, every row 16..255 of the alpha table is
the seed row `(i - 16) % 16` scaled by the integer factor `i / 16`, and
re-invoking the builder leaves the state unchanged. -/
theorem claim5_alphaTable :
    (∀ i j, 16 ≤ i → i ≤ 255 → j < 8 →
      alphaTableB i j = seedRow ((i - 16) % 16) j * ((i / 16 : Nat) : Int)) ∧
    (∀ s : AlphaGlobals, setupAlphaTable (setupAlphaTable s) = setupAlphaTable s) := by
  constructor
  · intro i j h16 h255 hj
    rw [alphaTableB_char i j (by omega) hj]
    have hp := phase1_eq_seedRow (16 + i % 16) j (by omega) (by omega) hj
    rw [show 16 + i % 16 - 16 = i % 16 from by omega] at hp
    rw [hp, show (i - 16) % 16 = i % 16 from by omega]
  · intro s
    unfold setupAlphaTable
    by_cases h : s.initd
    · simp [h]
    · simp [h]

/-- Witness for C5 at row 32, column 0, and the idempotence instance at
the start state. -/
theorem claim5_witness :
    ((16 ≤ 32 ∧ 32 ≤ 255 ∧ 0 < 8) ∧
      alphaTableB 32 0 = seedRow ((32 - 16) % 16) 0 * ((32 / 16 : Nat) : Int)) ∧
    setupAlphaTable (setupAlphaTable alphaGlobals0) = setupAlphaTable alphaGlobals0 :=
  ⟨⟨by norm_num,
    claim5_alphaTable.1 32 0 (by norm_num) (by norm_num) (by norm_num)⟩,
   claim5_alphaTable.2 alphaGlobals0⟩

/-! Bounds on the 3-bit alpha index extraction, used by C10. -/

theorem getbit_le (input frompos topos : Nat) : getbit input frompos topos ≤ 2 ^ topos := by
  unfold getbit
  split_ifs with h
  · calc ((1 <<< frompos) &&& input) >>> (frompos - topos)
        ≤ (1 <<< frompos) >>> (frompos - topos) := by
          rw [Nat.shiftRight_eq_div_pow, Nat.shiftRight_eq_div_pow]
          exact Nat.div_le_div_right Nat.and_le_left
      _ = 2 ^ topos := by
          rw [Nat.shiftLeft_eq, Nat.one_mul, Nat.shiftRight_eq_div_pow,
            Nat.pow_div (by omega) (by norm_num)]
          congr 1
          omega
  · calc ((1 <<< frompos) &&& input) <<< (topos - frompos)
        ≤ (1 <<< frompos) <<< (topos - frompos) := by
          rw [Nat.shiftLeft_eq, Nat.shiftLeft_eq ((1 : Nat) <<< frompos)]
          exact Nat.mul_le_mul_right _ Nat.and_le_left
      _ = 2 ^ topos := by
          rw [Nat.shiftLeft_eq, Nat.shiftLeft_eq, Nat.one_mul, ← Nat.pow_add]
          congr 1
          omega

theorem idx3_lt8 (d0 d1 d2 f0 f1 f2 : Nat) :
    (getbit d0 f0 2 ||| getbit d1 f1 1) ||| getbit d2 f2 0 < 8 := by
  have h2 := getbit_le d0 f0 2
  have h1 := getbit_le d1 f1 1
  have h0 := getbit_le d2 f2 0
  norm_num at h2 h1 h0
  have hA : getbit d0 f0 2 ||| getbit d1 f1 1 < 2 ^ 3 :=
    Nat.or_lt_two_pow (by norm_num; omega) (by norm_num; omega)
  have hB : (getbit d0 f0 2 ||| getbit d1 f1 1) ||| getbit d2 f2 0 < 2 ^ 3 :=
    Nat.or_lt_two_pow hA (by norm_num; omega)
  norm_num at hB
  exact hB

/-- Concrete texel traversal list. -/
theorem texelList_eq :
    texelList = [(0, 0), (0, 1), (0, 2), (0, 3), (1, 0), (1, 1), (1, 2), (1, 3),
      (2, 0), (2, 1), (2, 2), (2, 3), (3, 0), (3, 1), (3, 2), (3, 3)] := by rfl

/-- C10: after construction the first sixteen alpha-table rows are all
zero, so `decompressBlockAlphaC` on any alpha block whose table selector
byte is below 16 writes the base alpha byte unchanged to all sixteen
texels. -/
theorem claim10_alphaFlat :
    (∀ i j, i < 16 → j < 8 → alphaTableB i j = 0) ∧
    (∀ (data : Nat → Nat) (img : Buf) (x y : Fin 4),
      data 0 < 256 → data 1 < 16 →
      decompressBlockAlphaC data img 4 4 0 0 1 (x.val + y.val * 4) = data 0) := by
  constructor
  · intro i j hi hj
    exact alphaTableB_row_zero i j hi hj
  · intro data img x y h0 h1
    fin_cases x <;> fin_cases y <;>
      (simp [decompressBlockAlphaC, texelList_eq, alphaTexelStep, idxBitStep, upd_apply]
       <;> (rw [alphaTableB_row_zero _ _ h1 (idx3_lt8 _ _ _ _ _ _), add_zero]
            unfold clamp
            split_ifs <;> omega))

/-- Witness for C10: a zero-selector block with base alpha 77 decodes
texel (0,0) to 77, and entry (5,3) of the table is zero. -/
theorem claim10_witness :
    ((5 : Nat) < 16 ∧ (3 : Nat) < 8 ∧ alphaTableB 5 3 = 0) ∧
    ((fun n => if n = 0 then (77 : Nat) else 0) 0 < 256 ∧
      (fun n => if n = 0 then (77 : Nat) else 0) 1 < 16 ∧
      decompressBlockAlphaC (fun n => if n = 0 then 77 else 0) (fun _ => 0) 4 4 0 0 1
        ((0 : Fin 4).val + (0 : Fin 4).val * 4) =
        (fun n => if n = 0 then (77 : Nat) else 0) 0) :=
  ⟨⟨by norm_num, by norm_num, claim10_alphaFlat.1 5 3 (by norm_num) (by norm_num)⟩,
   ⟨by norm_num, by norm_num,
    claim10_alphaFlat.2 (fun n => if n = 0 then 77 else 0) (fun _ => 0) 0 0
      (by norm_num) (by norm_num)⟩⟩

/-! Read-back lemmas for the cropping loops, used by C8. -/

theorem cropZ_out (old img : Buf) (d s n a : Nat) (h : a < d ∨ d + n ≤ a) :
    cropZ old img d s n a = img a := by
  induction n with
  | zero => rfl
  | succ n ih =>
    simp only [cropZ, upd_apply]
    rw [if_neg (by omega)]
    exact ih (by omega)

theorem cropZ_at (old img : Buf) (d s n z : Nat) (hz : z < n) :
    cropZ old img d s n (d + z) = old (s + z) := by
  induction n with
  | zero => omega
  | succ n ih =>
    simp only [cropZ, upd_apply]
    by_cases hzn : z = n
    · subst hzn
      rw [if_pos rfl]
    · rw [if_neg (by omega)]
      exact ih (by omega)

theorem cropX_out (old img : Buf) (pB rowD rowS n a : Nat)
    (h : a < rowD ∨ rowD + n * pB ≤ a) :
    cropX old pB rowD rowS img n a = img a := by
  induction n with
  | zero => rfl
  | succ n ih =>
    have hm : (n + 1) * pB = n * pB + pB := Nat.succ_mul n pB
    simp only [cropX]
    rw [cropZ_out _ _ _ _ _ _ (by omega)]
    exact ih (by omega)

theorem cropX_at (old img : Buf) (pB rowD rowS n xx z : Nat)
    (hx : xx < n) (hz : z < pB) :
    cropX old pB rowD rowS img n (rowD + xx * pB + z) = old (rowS + xx * pB + z) := by
  induction n with
  | zero => omega
  | succ n ih =>
    simp only [cropX]
    by_cases hxn : xx = n
    · subst hxn
      have hd : rowD + xx * pB + z = (rowD + xx * pB) + z := by omega
      have hs : rowS + xx * pB + z = (rowS + xx * pB) + z := by omega
      rw [hd, hs, cropZ_at _ _ _ _ _ _ hz]
    · have hlt : xx * pB + z < n * pB := by nlinarith [Nat.lt_of_le_of_ne (Nat.lt_succ_iff.mp hx) hxn]
      rw [cropZ_out _ _ _ _ _ _ (by omega)]
      exact ih (by omega)

theorem cropY_at (old img : Buf) (aRB dRB pB aW n r xx z : Nat)
    (hr : r < n) (hx : xx < aW) (hz : z < pB) (hstride : aRB = aW * pB) :
    cropY old aRB dRB pB aW img n (r * aRB + xx * pB + z) =
      old (r * dRB + xx * pB + z) := by
  induction n with
  | zero => omega
  | succ n ih =>
    simp only [cropY]
    by_cases hrn : r = n
    · subst hrn
      rw [cropX_at _ _ _ _ _ _ _ _ hx hz]
    · have hrow : xx * pB + z < aRB := by
        rw [hstride]
        nlinarith
      have hlt : r * aRB + xx * pB + z < n * aRB := by
        have h1 : (r + 1) * aRB = r * aRB + aRB := Nat.succ_mul r aRB
        have h2 : (r + 1) * aRB ≤ n * aRB :=
          Nat.mul_le_mul_right _ (by omega)
        omega
      rw [cropX_out _ _ _ _ _ _ _ (Or.inl hlt)]
      exact ih (by omega)

/-- C8: the crop step of `KTXUnpackETC` allocates exactly
`activeWidth * activeHeight * pixelBytes` bytes, and byte `i` of output
row `r` equals byte `i` of padded row `r`, for every row below the
active height and every byte offset below the active row width. -/
theorem claim8_crop (old img0 : Buf) (aW aH width pB r i : Nat)
    (hpB : 0 < pB) (hr : r < aH) (hi : i < aW * pB) :
    cropAllocSize pB aW aH = aW * aH * pB ∧
    cropImage old img0 aW aH width pB (r * (aW * pB) + i) =
      old (r * (width * pB) + i) := by
  constructor
  · unfold cropAllocSize
    ring
  · have hxx : i / pB < aW := by
      rw [Nat.div_lt_iff_lt_mul hpB]
      omega
    have hzz : i % pB < pB := Nat.mod_lt _ hpB
    have hdecomp : (i / pB) * pB + i % pB = i := by
      rw [Nat.mul_comm]
      exact Nat.div_add_mod i pB
    unfold cropImage
    rw [show r * (aW * pB) + i = r * (aW * pB) + (i / pB) * pB + i % pB from by omega,
      show r * (width * pB) + i = r * (width * pB) + (i / pB) * pB + i % pB from by omega]
    exact cropY_at old img0 (aW * pB) (width * pB) pB aW aH r (i / pB) (i % pB)
      hr hxx hzz rfl

/-- Witness for C8 at the padded 8 by 8, active 6 by 5, three-byte-pixel
instance from the specification. -/
theorem claim8_witness :
    (0 < 3 ∧ 4 < 5 ∧ 17 < 6 * 3) ∧
    (cropAllocSize 3 6 5 = 6 * 5 * 3 ∧
      cropImage (fun a => a % 256) (fun _ => 0) 6 5 8 3 (4 * (6 * 3) + 17) =
        (fun a => a % 256) (4 * (8 * 3) + 17)) :=
  ⟨⟨by norm_num, by norm_num, by norm_num⟩,
   claim8_crop (fun a => a % 256) (fun _ => 0) 6 5 8 3 4 17 (by norm_num) (by norm_num)
     (by norm_num)⟩

/-! Characterization of the mip-level loop, used by C7. -/

/-- The slot list a successful `loadMipLevels` run produces. -/
def expectedSlots (k fmt : Nat) : Nat → Nat → Nat → List Nat → List (Option MipSlot)
  | _, _, _, [] => []
  | level, x, y, s :: rest =>
    (if k ≤ level then some ⟨s, x, y, fmt⟩ else none) ::
      expectedSlots k fmt (level + 1) (halve x) (halve y) rest

theorem loadMipLevels_char (k fmt : Nat) (sizes : List Nat) :
    ∀ level x y slots consumed,
      loadMipLevels k fmt level x y sizes = some (slots, consumed) →
      slots = expectedSlots k fmt level x y sizes ∧
      consumed = (sizes.map (fun s => 4 + s)).sum := by
  induction sizes with
  | nil =>
    intro level x y slots consumed h
    simp only [loadMipLevels, Option.some.injEq, Prod.mk.injEq] at h
    obtain ⟨h1, h2⟩ := h
    simp [expectedSlots, ← h1, ← h2]
  | cons s rest ih =>
    intro level x y slots consumed h
    simp only [loadMipLevels] at h
    by_cases hc : mipSizeCheck s
    · rw [if_pos hc] at h
      cases hrec : loadMipLevels k fmt (level + 1) (halve x) (halve y) rest with
      | none =>
        rw [hrec] at h
        simp at h
      | some pr =>
        obtain ⟨slots2, consumed2⟩ := pr
        rw [hrec] at h
        dsimp only at h
        obtain ⟨hs2, hc2⟩ := ih (level + 1) (halve x) (halve y) slots2 consumed2 hrec
        by_cases hk : k ≤ level
        · rw [if_pos hk] at h
          simp only [Option.some.injEq, Prod.mk.injEq] at h
          obtain ⟨h1, h2⟩ := h
          constructor
          · rw [← h1, hs2]
            simp [expectedSlots, hk]
          · rw [← h2, hc2]
            simp
        · rw [if_neg hk] at h
          simp only [Option.some.injEq, Prod.mk.injEq] at h
          obtain ⟨h1, h2⟩ := h
          constructor
          · rw [← h1, hs2]
            simp [expectedSlots, hk]
          · rw [← h2, hc2]
            simp
    · rw [if_neg hc] at h
      simp at h

theorem expectedSlots_length (k fmt : Nat) (sizes : List Nat) :
    ∀ level x y, (expectedSlots k fmt level x y sizes).length = sizes.length := by
  induction sizes with
  | nil =>
    intro level x y
    rfl
  | cons s rest ih =>
    intro level x y
    simp [expectedSlots, ih]

theorem expectedSlots_getD (k fmt : Nat) (sizes : List Nat) :
    ∀ level x y i, i < sizes.length →
      (expectedSlots k fmt level x y sizes).getD i none =
        if k ≤ level + i then some ⟨sizes.getD i 0, halve^[i] x, halve^[i] y, fmt⟩
        else none := by
  induction sizes with
  | nil =>
    intro level x y i hi
    simp at hi
  | cons s rest ih =>
    intro level x y i hi
    cases i with
    | zero => simp [expectedSlots]
    | succ i2 =>
      simp only [expectedSlots, List.getD_cons_succ]
      rw [ih (level + 1) (halve x) (halve y) i2 (by simpa using hi)]
      have he : level + 1 + i2 = level + (i2 + 1) := by omega
      rw [he, Function.iterate_succ_apply, Function.iterate_succ_apply]

theorem expectedSlots_countP (k fmt : Nat) (sizes : List Nat) :
    ∀ level x y, (expectedSlots k fmt level x y sizes).countP (fun o => o.isSome) =
      sizes.length - (k - level) := by
  induction sizes with
  | nil =>
    intro level x y
    simp [expectedSlots]
  | cons s rest ih =>
    intro level x y
    simp only [expectedSlots, List.countP_cons]
    rw [ih (level + 1) (halve x) (halve y)]
    by_cases hk : k ≤ level
    · simp only [hk, if_pos, List.length_cons]
      simp
      omega
    · simp only [hk, if_neg, List.length_cons]
      simp [hk]
      omega

/-- C7: a successful mip-level walk with base level `k` returns one slot
per declared level; slot `i` is materialized (with its size, width,
height, and format) exactly when `k ≤ i`, the first `k` slots are null,
exactly `N - k` slots are non-null, and the byte cursor still advances
over every level, skipped ones included. -/
theorem claim7_loadMipLevels (k fmt w h0 : Nat) (sizes : List Nat)
    (slots : List (Option MipSlot)) (consumed : Nat) (i : Nat)
    (hk : k ≤ sizes.length) (hi : i < sizes.length)
    (h : loadMipLevels k fmt 0 w h0 sizes = some (slots, consumed)) :
    slots.length = sizes.length ∧
    ((slots.getD i none).isSome ↔ k ≤ i) ∧
    slots.getD i none =
      (if k ≤ i then some ⟨sizes.getD i 0, halve^[i] w, halve^[i] h0, fmt⟩ else none) ∧
    slots.countP (fun o => o.isSome) = sizes.length - k ∧
    consumed = (sizes.map (fun s => 4 + s)).sum := by
  obtain ⟨hs, hc⟩ := loadMipLevels_char k fmt sizes 0 w h0 slots consumed h
  subst hs
  have hgd := expectedSlots_getD k fmt sizes 0 w h0 i hi
  rw [Nat.zero_add] at hgd
  refine ⟨expectedSlots_length k fmt sizes 0 w h0, ?_, hgd, ?_, hc⟩
  · rw [hgd]
    by_cases hki : k ≤ i
    · simp [hki]
    · simp [hki]
  · rw [expectedSlots_countP k fmt sizes 0 w h0]
    omega

/-- Witness for C7: two declared levels of sizes 8 and 4 with base level
1; the first slot is null, the second materialized, and 20 bytes are
consumed. -/
theorem claim7_witness :
    ((1 : Nat) ≤ [8, 4].length ∧ (1 : Nat) < [8, 4].length ∧
      loadMipLevels 1 9 0 8 8 [8, 4] =
        some ([none, some ⟨4, 4, 4, 9⟩], 20)) ∧
    ([none, some (⟨4, 4, 4, 9⟩ : MipSlot)].length = [8, 4].length ∧
    (([none, some (⟨4, 4, 4, 9⟩ : MipSlot)].getD 1 none).isSome ↔ 1 ≤ 1) ∧
    [none, some (⟨4, 4, 4, 9⟩ : MipSlot)].getD 1 none =
      (if 1 ≤ 1 then some ⟨[8, 4].getD 1 0, halve^[1] 8, halve^[1] 8, 9⟩ else none) ∧
    [none, some (⟨4, 4, 4, 9⟩ : MipSlot)].countP (fun o => o.isSome) = [8, 4].length - 1 ∧
    (20 : Nat) = ([8, 4].map (fun s => 4 + s)).sum) :=
  ⟨⟨by norm_num, by norm_num, by decide⟩,
   claim7_loadMipLevels 1 9 8 8 [8, 4] [none, some ⟨4, 4, 4, 9⟩] 20 1
     (by norm_num) (by norm_num) (by decide)⟩

/-! C2: the individual/differential decoder against the per-texel claim
formula. -/

/-- The claim-side per-texel value for C2: the sub-block is chosen by the
flip bit and texel position, its base colour is expanded by the 4-bit or
5-bit replication rule (the second differential base being the in-range
reconstructed base-plus-delta), the selector is the sub-block codeword
shifted left by one, and the texel index is read from the two index
planes and unscrambled. -/
def diffFlipClaimPixel (p1 p2 x y c : Nat) : Nat :=
  let diffbit := GETBITSHIGH p1 1 33
  let flipbit := GETBITSHIGH p1 1 32
  let second : Bool := if flipbit = 0 then decide (2 ≤ x) else decide (2 ≤ y)
  let sel := if second then (GETBITSHIGH p1 3 36) <<< 1 else (GETBITSHIGH p1 3 39) <<< 1
  let base :=
    if diffbit = 0 then
      (if second then exp4 (GETBITSHIGH p1 4 (59 - 8 * c))
       else exp4 (GETBITSHIGH p1 4 (63 - 8 * c)))
    else
      (if second then exp5 ((recon2 p1 c).toNat) else exp5 (base5 p1 c))
  let idx := pixIndexOf (GETBITS p2 16 31) (GETBITS p2 16 15) (x * 4 + y)
  clampU8 ((base : Int) + compressParams sel (unscramble idx))

/-- Concrete unflipped traversal of the left half-block. -/
theorem colPairs00 :
    colPairs 0 0 = [(0, 0), (0, 1), (0, 2), (0, 3), (1, 0), (1, 1), (1, 2), (1, 3)] := rfl

/-- Concrete unflipped traversal of the right half-block. -/
theorem colPairs20 :
    colPairs 2 0 = [(2, 0), (2, 1), (2, 2), (2, 3), (3, 0), (3, 1), (3, 2), (3, 3)] := rfl

theorem range4_eq : List.range 4 = [0, 1, 2, 3] := rfl

theorem range2_eq : List.range 2 = [0, 1] := rfl

set_option maxHeartbeats 12000000 in
/-- C2: for every block decoded by `decompressBlockDiffFlipC` in
individual mode, or in differential mode with the reconstructed second
base colour in range, every texel channel read back from the buffer
equals the clamp of the sub-block base colour plus the modifier selected
by the sub-block codeword and the unscrambled 2-bit texel index. -/
theorem claim2_diffFlip (p1 p2 : Nat) (img : Buf) (x y : Fin 4) (c : Fin 3)
    (hp1 : p1 < 4294967296) (hp2 : p2 < 4294967296)
    (hrange : GETBITSHIGH p1 1 33 ≠ 0 → ∀ ch, ch < 3 → 0 ≤ recon2 p1 ch ∧ recon2 p1 ch ≤ 31) :
    decompressBlockDiffFlipC p1 p2 img 4 4 0 0 3 (3 * (y.val * 4 + x.val) + c.val) =
      diffFlipClaimPixel p1 p2 x.val y.val c.val := by
  have hd := GETBITSHIGH_lt p1 1 33
  have hf := GETBITSHIGH_lt p1 1 32
  norm_num at hd hf
  have hd2 : GETBITSHIGH p1 1 33 = 0 ∨ GETBITSHIGH p1 1 33 = 1 := by omega
  have hf2 : GETBITSHIGH p1 1 32 = 0 ∨ GETBITSHIGH p1 1 32 = 1 := by omega
  rcases hd2 with hd0 | hd1 <;> rcases hf2 with hf0 | hf1
  · fin_cases x <;> fin_cases y <;> fin_cases c <;>
      simp [decompressBlockDiffFlipC, diffFlipClaimPixel, hd0, hf0, colPairs00, colPairs20,
        range4_eq, range2_eq, diffFlipHalfFlip, diffFlipStep, writeRGB, upd, pixIndexOf]
  · fin_cases x <;> fin_cases y <;> fin_cases c <;>
      simp [decompressBlockDiffFlipC, diffFlipClaimPixel, hd0, hf1, colPairs00, colPairs20,
        range4_eq, range2_eq, diffFlipHalfFlip, diffFlipStep, writeRGB, upd, pixIndexOf]
  · have e0 : exp5 (u8 (recon2 p1 0)) = exp5 ((recon2 p1 0).toNat) := by
      obtain ⟨ha, hb⟩ := hrange (by omega) 0 (by norm_num)
      unfold u8
      congr 1
      omega
    have e1 : exp5 (u8 (recon2 p1 1)) = exp5 ((recon2 p1 1).toNat) := by
      obtain ⟨ha, hb⟩ := hrange (by omega) 1 (by norm_num)
      unfold u8
      congr 1
      omega
    have e2 : exp5 (u8 (recon2 p1 2)) = exp5 ((recon2 p1 2).toNat) := by
      obtain ⟨ha, hb⟩ := hrange (by omega) 2 (by norm_num)
      unfold u8
      congr 1
      omega
    fin_cases x <;> fin_cases y <;> fin_cases c <;>
      simp [decompressBlockDiffFlipC, diffFlipClaimPixel, hd1, hf0, colPairs00, colPairs20,
        range4_eq, range2_eq, diffFlipHalfFlip, diffFlipStep, writeRGB, upd, pixIndexOf,
        e0, e1, e2]
  · have e0 : exp5 (u8 (recon2 p1 0)) = exp5 ((recon2 p1 0).toNat) := by
      obtain ⟨ha, hb⟩ := hrange (by omega) 0 (by norm_num)
      unfold u8
      congr 1
      omega
    have e1 : exp5 (u8 (recon2 p1 1)) = exp5 ((recon2 p1 1).toNat) := by
      obtain ⟨ha, hb⟩ := hrange (by omega) 1 (by norm_num)
      unfold u8
      congr 1
      omega
    have e2 : exp5 (u8 (recon2 p1 2)) = exp5 ((recon2 p1 2).toNat) := by
      obtain ⟨ha, hb⟩ := hrange (by omega) 2 (by norm_num)
      unfold u8
      congr 1
      omega
    fin_cases x <;> fin_cases y <;> fin_cases c <;>
      simp [decompressBlockDiffFlipC, diffFlipClaimPixel, hd1, hf1, colPairs00, colPairs20,
        range4_eq, range2_eq, diffFlipHalfFlip, diffFlipStep, writeRGB, upd, pixIndexOf,
        e0, e1, e2]

/-- Witness for C2 at the zero block (individual mode), texel (0,0),
red channel. -/
theorem claim2_witness :
    ((0 : Nat) < 4294967296 ∧
      (GETBITSHIGH 0 1 33 ≠ 0 → ∀ ch, ch < 3 → 0 ≤ recon2 0 ch ∧ recon2 0 ch ≤ 31)) ∧
    decompressBlockDiffFlipC 0 0 (fun _ => 0) 4 4 0 0 3
        (3 * ((0 : Fin 4).val * 4 + (0 : Fin 4).val) + (0 : Fin 3).val) =
      diffFlipClaimPixel 0 0 (0 : Fin 4).val (0 : Fin 4).val (0 : Fin 3).val :=
  ⟨⟨by norm_num, fun h => absurd rfl h⟩,
   claim2_diffFlip 0 0 (fun _ => 0) 0 0 0 (by norm_num) (by norm_num)
     (fun h => absurd rfl h)⟩

/-! C4: the punch-through differential decoder in transparent mode. -/

/-- The claim-side per-texel index for C4: the decoder final 2-bit
index, i.e. the value read from the two index planes and unscrambled. -/
def paClaimIdx (p2 x y : Nat) : Nat :=
  unscramble (pixIndexOf (GETBITS p2 16 31) (GETBITS p2 16 15) (x * 4 + y))

theorem paT_fst_ne (bufs : Buf × Buf) (w x y : Nat) (avg : Nat × Nat × Nat)
    (t d i a : Nat) (h0 : a ≠ 3 * (y * w + x)) (h1 : a ≠ 3 * (y * w + x) + 1)
    (h2 : a ≠ 3 * (y * w + x) + 2) :
    (paTexelWrite bufs w 3 x y avg t d i).1 a = bufs.1 a := by
  unfold paTexelWrite writeA writeRGB
  split_ifs <;> simp_all [upd_apply]

theorem paT_snd_ne (bufs : Buf × Buf) (w x y : Nat) (avg : Nat × Nat × Nat)
    (t d i a : Nat) (h0 : a ≠ (y * w + x) * 1) :
    (paTexelWrite bufs w 3 x y avg t d i).2 a = bufs.2 a := by
  unfold paTexelWrite writeA writeRGB
  split_ifs <;> simp_all [upd_apply]

theorem paT_snd_own (bufs : Buf × Buf) (w x y : Nat) (avg : Nat × Nat × Nat)
    (t d i a : Nat) (ha : a = (y * w + x) * 1) :
    (paTexelWrite bufs w 3 x y avg t d i).2 a =
      if d = 0 ∧ i = 1 then 0 else 255 := by
  subst ha
  unfold paTexelWrite writeA writeRGB
  split_ifs <;> simp_all [upd_apply]

theorem paT_zero0 (bufs : Buf × Buf) (w x y : Nat) (avg : Nat × Nat × Nat) (t a : Nat)
    (ha : a = 3 * (y * w + x)) :
    (paTexelWrite bufs w 3 x y avg t 0 1).1 a = 0 := by
  subst ha
  unfold paTexelWrite writeA writeRGB
  simp [upd_apply]

theorem paT_zero1 (bufs : Buf × Buf) (w x y : Nat) (avg : Nat × Nat × Nat) (t a : Nat)
    (ha : a = 3 * (y * w + x) + 1) :
    (paTexelWrite bufs w 3 x y avg t 0 1).1 a = 0 := by
  subst ha
  unfold paTexelWrite writeA writeRGB
  simp [upd_apply]

theorem paT_zero2 (bufs : Buf × Buf) (w x y : Nat) (avg : Nat × Nat × Nat) (t a : Nat)
    (ha : a = 3 * (y * w + x) + 2) :
    (paTexelWrite bufs w 3 x y avg t 0 1).1 a = 0 := by
  subst ha
  unfold paTexelWrite writeA writeRGB
  simp [upd_apply]

set_option maxHeartbeats 12000000 in
/-- C4: for every block decoded by the punch-through differential decoder
with the diffbit clear, a texel whose final 2-bit index is 1 has its
three colour channels and its alpha written as 0, and every other texel
has its alpha written as 255. -/
theorem claim4_punchThrough (p1 p2 : Nat) (img alphaB : Buf) (x y : Fin 4)
    (hp1 : p1 < 4294967296) (hp2 : p2 < 4294967296)
    (hdiff : GETBITSHIGH p1 1 33 = 0) :
    (paClaimIdx p2 x.val y.val = 1 →
      (decompressBlockDifferentialWithAlphaC p1 p2 img alphaB 4 4 0 0 3).1
          (3 * (y.val * 4 + x.val)) = 0 ∧
      (decompressBlockDifferentialWithAlphaC p1 p2 img alphaB 4 4 0 0 3).1
          (3 * (y.val * 4 + x.val) + 1) = 0 ∧
      (decompressBlockDifferentialWithAlphaC p1 p2 img alphaB 4 4 0 0 3).1
          (3 * (y.val * 4 + x.val) + 2) = 0 ∧
      (decompressBlockDifferentialWithAlphaC p1 p2 img alphaB 4 4 0 0 3).2
          ((y.val * 4 + x.val) * 1) = 0) ∧
    (paClaimIdx p2 x.val y.val ≠ 1 →
      (decompressBlockDifferentialWithAlphaC p1 p2 img alphaB 4 4 0 0 3).2
          ((y.val * 4 + x.val) * 1) = 255) := by
  have hf := GETBITSHIGH_lt p1 1 32
  norm_num at hf
  have hf2 : GETBITSHIGH p1 1 32 = 0 ∨ GETBITSHIGH p1 1 32 = 1 := by omega
  rcases hf2 with hf0 | hf1
  · fin_cases x <;> fin_cases y <;>
      (constructor
       · intro h
         simp only [paClaimIdx] at h
         refine ⟨?_, ?_, ?_, ?_⟩ <;>
           simp [decompressBlockDifferentialWithAlphaC, hdiff, hf0, colPairs00, colPairs20,
             range4_eq, range2_eq, paHalfFlip, paStep, h, paT_fst_ne, paT_snd_ne,
             paT_snd_own, paT_zero0, paT_zero1, paT_zero2]
       · intro h
         simp only [paClaimIdx] at h
         simp [decompressBlockDifferentialWithAlphaC, hdiff, hf0, colPairs00, colPairs20,
           range4_eq, range2_eq, paHalfFlip, paStep, h, paT_snd_ne, paT_snd_own])
  · fin_cases x <;> fin_cases y <;>
      (constructor
       · intro h
         simp only [paClaimIdx] at h
         refine ⟨?_, ?_, ?_, ?_⟩ <;>
           simp [decompressBlockDifferentialWithAlphaC, hdiff, hf1, colPairs00, colPairs20,
             range4_eq, range2_eq, paHalfFlip, paStep, h, paT_fst_ne, paT_snd_ne,
             paT_snd_own, paT_zero0, paT_zero1, paT_zero2]
       · intro h
         simp only [paClaimIdx] at h
         simp [decompressBlockDifferentialWithAlphaC, hdiff, hf1, colPairs00, colPairs20,
           range4_eq, range2_eq, paHalfFlip, paStep, h, paT_snd_ne, paT_snd_own])

/-- Witness for C4 at a zero colour block whose index planes make texel
(0,0) transparent: MSB plane bit 0 set, LSB plane bit 0 clear gives raw
index 2, which unscrambles to 1. -/
theorem claim4_witness :
    ((0 : Nat) < 4294967296 ∧ (65536 : Nat) < 4294967296 ∧ GETBITSHIGH 0 1 33 = 0) ∧
    ((paClaimIdx 65536 (0 : Fin 4).val (0 : Fin 4).val = 1 →
      (decompressBlockDifferentialWithAlphaC 0 65536 (fun _ => 9) (fun _ => 9) 4 4 0 0 3).1
          (3 * ((0 : Fin 4).val * 4 + (0 : Fin 4).val)) = 0 ∧
      (decompressBlockDifferentialWithAlphaC 0 65536 (fun _ => 9) (fun _ => 9) 4 4 0 0 3).1
          (3 * ((0 : Fin 4).val * 4 + (0 : Fin 4).val) + 1) = 0 ∧
      (decompressBlockDifferentialWithAlphaC 0 65536 (fun _ => 9) (fun _ => 9) 4 4 0 0 3).1
          (3 * ((0 : Fin 4).val * 4 + (0 : Fin 4).val) + 2) = 0 ∧
      (decompressBlockDifferentialWithAlphaC 0 65536 (fun _ => 9) (fun _ => 9) 4 4 0 0 3).2
          (((0 : Fin 4).val * 4 + (0 : Fin 4).val) * 1) = 0) ∧
    (paClaimIdx 65536 (0 : Fin 4).val (0 : Fin 4).val ≠ 1 →
      (decompressBlockDifferentialWithAlphaC 0 65536 (fun _ => 9) (fun _ => 9) 4 4 0 0 3).2
          (((0 : Fin 4).val * 4 + (0 : Fin 4).val) * 1) = 255)) :=
  ⟨⟨by norm_num, by norm_num, by decide⟩,
   claim4_punchThrough 0 65536 (fun _ => 9) (fun _ => 9) 0 0 (by norm_num) (by norm_num)
     (by decide)⟩

/-- C9: every block decoder at the decompression interface ignores its
height argument: two calls identical except for the height produce
identical buffers. -/
theorem claim9_heightIndependent :
    ∀ (p1 p2 : Nat) (img alphaB : Buf) (data : Nat → Nat)
      (width h1 h2 startx starty channels : Nat),
      decompressBlockETC2c p1 p2 img width h1 startx starty channels =
        decompressBlockETC2c p1 p2 img width h2 startx starty channels ∧
      decompressBlockDiffFlipC p1 p2 img width h1 startx starty channels =
        decompressBlockDiffFlipC p1 p2 img width h2 startx starty channels ∧
      decompressBlockTHUMB59Tc p1 p2 img width h1 startx starty channels =
        decompressBlockTHUMB59Tc p1 p2 img width h2 startx starty channels ∧
      decompressBlockTHUMB58Hc p1 p2 img width h1 startx starty channels =
        decompressBlockTHUMB58Hc p1 p2 img width h2 startx starty channels ∧
      decompressBlockPlanar57c p1 p2 img width h1 startx starty channels =
        decompressBlockPlanar57c p1 p2 img width h2 startx starty channels ∧
      decompressBlockDifferentialWithAlphaC p1 p2 img alphaB width h1 startx starty channels =
        decompressBlockDifferentialWithAlphaC p1 p2 img alphaB width h2 startx starty channels ∧
      decompressBlockAlphaC data img width h1 startx starty channels =
        decompressBlockAlphaC data img width h2 startx starty channels :=
  fun _ _ _ _ _ _ _ _ _ _ _ => ⟨rfl, rfl, rfl, rfl, rfl, rfl, rfl⟩

end KTX
